import Mathlib

/-!
Shallow embedding of the incremental XML reconciliation core of the
horsesmouthsportsdata repository: the merge/dedup/change-tracking logic of
`src/games_fetch_nfl.py` and `src/games/_02games_nfl.py`, and the team
synchronisation loop of `src/tools/teams_builder.py`.

Python records are flat string-keyed dicts whose values are strings or
`None`; they are embedded as Lean structures with `Option String` fields
where `None` can occur, and field comparisons go through `pyStr`
(Python's `str()` coercion, with `str(None) = "None"`).  Python `dict`s
are embedded as insertion-ordered association lists built by iterated
assignment.
-/

/-- Python `str()` applied to a value that is either a string or `None`:
`str(None) = "None"`.  This is the coercion used by the field comparisons in
`games_fetch_nfl.py` (for example `str(game.get(field, ''))`). -/
def pyStr : Option String → String
  | none => "None"
  | some s => s

/-- Python `x or ""` for a string-or-`None` value: `None` and `""` are falsy,
so both map to `""`. -/
def pyOrEmpty : Option String → String
  | none => ""
  | some s => s

/-- Python `x or d` for a string-or-`None` value `x` and a non-empty string
default `d`. -/
def pyOrDefault (x : Option String) (d : String) : String :=
  match x with
  | none => d
  | some s => if s = "" then d else s

/-- Python truthiness of a string-or-`None` value (`bool(x)`). -/
def pyTruthy : Option String → Bool
  | none => false
  | some s => s ≠ ""

/-- Membership test `k in d` on an embedded Python dict. -/
def dict_contains {κ α : Type} [BEq κ] (d : List (κ × α)) (k : κ) : Bool :=
  d.any (fun p => p.1 == k)

/-- Subscript read `d[k]` / `d.get(k)` on an embedded Python dict. -/
def dict_lookup {κ α : Type} [BEq κ] (d : List (κ × α)) (k : κ) : Option α :=
  (d.find? (fun p => p.1 == k)).map (·.2)

/-- Assignment `d[k] = v` on an embedded Python dict: overwrite the entry in
place if the key is present (dicts built by assignment never hold a key
twice), otherwise append the new entry, preserving insertion order. -/
def dict_assign {κ α : Type} [BEq κ] : List (κ × α) → κ → α → List (κ × α)
  | [], k, v => [(k, v)]
  | p :: d, k, v => if p.1 == k then (p.1, v) :: d else p :: dict_assign d k v

/-- Key list of an embedded Python dict, in insertion order. -/
def dict_keys {κ α : Type} (d : List (κ × α)) : List κ :=
  d.map (·.1)

/-- A game record in the college-football XML format produced by
`_convert_to_college_format` in `src/games/_02games_nfl.py` (lines 182-218):
a flat dict of string fields whose natural key is `id`. -/
structure CGame where
  id : String := ""
  season : String := ""
  week : String := ""
  seasontype : String := ""
  startdate : String := ""
  starttimetbd : String := ""
  completed : String := ""
  neutralsite : String := ""
  conferencegame : String := ""
  venueid : String := ""
  venue : String := ""
  homeid : String := ""
  hometeam : String := ""
  homeclassification : String := ""
  homeconference : String := ""
  awayid : String := ""
  awayteam : String := ""
  awayclassification : String := ""
  awayconference : String := ""
  network : String := ""
  notes : String := ""
deriving DecidableEq

/-- Result of `_merge_games`: the merged dict plus the append/overwrite
counters and the log lines it emits. -/
structure MergeResult where
  merged : List (String × CGame)
  new_count : Nat
  overwrite_count : Nat
  log : List String
deriving DecidableEq

/-- Loop body of `_merge_games` for one new game: set
`merged[game['id']] = game`, counting and logging an APPEND when the id
was absent and an OVERWRITE when it was present. -/
def merge_games_step (r : MergeResult) (game : CGame) : MergeResult :=
  if dict_contains r.merged game.id then
    { merged := dict_assign r.merged game.id game
      new_count := r.new_count
      overwrite_count := r.overwrite_count + 1
      log := r.log ++
        ["OVERWRITE: Game " ++ game.id ++ " - " ++ game.awayteam ++
          " at " ++ game.hometeam] }
  else
    { merged := dict_assign r.merged game.id game
      new_count := r.new_count + 1
      overwrite_count := r.overwrite_count
      log := r.log ++
        ["APPEND: Game " ++ game.id ++ " - " ++ game.awayteam ++
          " at " ++ game.hometeam] }

/-- Embedding of `_merge_games` in `src/games/_02games_nfl.py` (lines
497-525): start from a copy of `existing_games`, then run the loop body
over the new games. -/
def merge_games (existing_games : List (String × CGame)) (games : List CGame) :
    MergeResult :=
  games.foldl merge_games_step
    { merged := existing_games, new_count := 0, overwrite_count := 0, log := [] }

/-- A scraped NFL game record as built by `_extract_single_game` and
`_generate_game_identifiers` in `src/games_fetch_nfl.py`: `week` and `date`
come from header-row context and can be `None`; the text fields are strings
when scraped but can be `None` after an XML round trip (an empty element's
`.text` is `None`); the four identifier fields are generated strings. -/
structure NGame where
  week : Option String := none
  date : Option String := none
  away_team : Option String := some ""
  home_team : Option String := some ""
  location_note : Option String := some ""
  time_et : Option String := some ""
  time_local : Option String := some ""
  network : Option String := some ""
  game_id : String := ""
  week_game_id : String := ""
  game_code : String := ""
  nfl_game_key : String := ""
deriving DecidableEq

/-- The deduplication key built by `_remove_duplicate_games` (lines 160-177
of `src/games_fetch_nfl.py`):
the f-string `f"{week}-{away_team}-{home_team}-{date}"`, whose conversions
go through `str()`. -/
def natural_key (g : NGame) : String :=
  pyStr g.week ++ "-" ++ pyStr g.away_team ++ "-" ++ pyStr g.home_team ++
    "-" ++ pyStr g.date

/-- Loop of `_remove_duplicate_games`: keep a game only if its key has not
been seen yet, recording each kept key in the `seen_games` set. -/
def remove_duplicate_games_aux (seen : List String) : List NGame → List NGame
  | [] => []
  | g :: gs =>
    if natural_key g ∈ seen then remove_duplicate_games_aux seen gs
    else g :: remove_duplicate_games_aux (natural_key g :: seen) gs

/-- Embedding of `_remove_duplicate_games` in `src/games_fetch_nfl.py`
(lines 160-177): drop every game whose `week-away-home-date` key already
occurred earlier in the list. -/
def remove_duplicate_games (games : List NGame) : List NGame :=
  remove_duplicate_games_aux [] games

/-- Stable insertion of `x` into a list sorted by the boolean comparison
`le`: `x` goes before the first element it compares `le` to, hence after any
earlier element equivalent to it. -/
def ordered_insert {α : Type} (le : α → α → Bool) (x : α) : List α → List α
  | [] => [x]
  | y :: ys => if le x y then x :: y :: ys else y :: ordered_insert le x ys

/-- Stable sort by the boolean comparison `le`.  For a total preorder this
produces the same list as Python's stable `list.sort`, which is what
`_generate_game_identifiers` uses. -/
def insertion_sort_by {α : Type} (le : α → α → Bool) : List α → List α
  | [] => []
  | x :: xs => ordered_insert le x (insertion_sort_by le xs)

/-- Python `s.isdigit()` restricted to ASCII digits (the week strings are
extracted by the regex `WEEK\s+(\d+)`, so only ASCII digits occur). -/
def str_isdigit (s : String) : Bool :=
  s ≠ "" && s.data.all Char.isDigit

/-- First component of the chronological sort key in
`_generate_game_identifiers` (lines 318-322 of `src/games_fetch_nfl.py`):
`int(g['week']) if g['week'] and g['week'].isdigit() else 999`.
`String.toNat?` succeeds exactly on the non-empty all-digit strings. -/
def week_sort_num (g : NGame) : Nat :=
  (g.week.bind String.toNat?).getD 999

/-- Second component of the sort key: `g['date'] or ''`. -/
def date_sort_key (g : NGame) : String :=
  pyOrEmpty g.date

/-- Third component of the sort key: `g['time_et'] or ''`. -/
def time_sort_key (g : NGame) : String :=
  pyOrEmpty g.time_et

/-- Lexicographic `≤` on the `(week, date, time_et)` sort key of
`_generate_game_identifiers`, matching Python's tuple comparison. -/
def game_sort_le (a b : NGame) : Bool :=
  if week_sort_num a ≠ week_sort_num b then
    decide (week_sort_num a < week_sort_num b)
  else if date_sort_key a ≠ date_sort_key b then
    decide (date_sort_key a < date_sort_key b)
  else
    decide (time_sort_key a ≤ time_sort_key b)

/-- ASCII approximation of the regex class `\w` (word character). -/
def is_word_char (c : Char) : Bool :=
  c.isAlphanum || c == '_'

/-- Collapse every maximal run of hyphens and whitespace into a single
hyphen, as the substitution `re.sub(r'[-\s]+', '-', slug)` does; the flag
records whether the previous character belonged to such a run. -/
def collapse_runs : Bool → List Char → List Char
  | _, [] => []
  | in_run, c :: cs =>
    if c == '-' || c.isWhitespace then
      if in_run then collapse_runs true cs
      else '-' :: collapse_runs true cs
    else c :: collapse_runs false cs

/-- Python `s.strip('-')` on a character list. -/
def strip_hyphens (cs : List Char) : List Char :=
  ((cs.dropWhile (· == '-')).reverse.dropWhile (· == '-')).reverse

/-- Embedding of `_get_team_abbreviation` (lines 351-376 of
`src/games_fetch_nfl.py`): lowercase, drop characters outside `\w`, `\s` and
`-`, collapse hyphen/whitespace runs to single hyphens, strip hyphens, and
fall back to `"unknown-team"` when the input or the result is falsy. -/
def get_team_abbreviation (team_name : Option String) : String :=
  if pyTruthy team_name = false then "unknown-team"
  else
    let lowered := (pyOrEmpty team_name).toLower
    let kept := lowered.data.filter
      (fun c => is_word_char c || c.isWhitespace || c == '-')
    let slug := String.mk (strip_hyphens (collapse_runs false kept))
    if slug = "" then "unknown-team" else slug

/-- Left-pad a string with zeros to width `w` (Python `s.zfill(w)`). -/
def zfill (w : Nat) (s : String) : String :=
  String.mk (List.replicate (w - s.length) '0') ++ s

/-- Python's format `{n:0wd}`: decimal representation left-padded with
zeros to width `w`. -/
def pad_nat (w : Nat) (n : Nat) : String :=
  zfill w (toString n)

/-- Embedding of `_create_team_based_code` (lines 340-344):
`f"2025W{week or 'X'}-{away_slug}@{home_slug}"`. -/
def create_team_based_code (g : NGame) (week : String) : String :=
  "2025W" ++ (if week = "" then "X" else week) ++ "-" ++
    get_team_abbreviation g.away_team ++ "@" ++
    get_team_abbreviation g.home_team

/-- Embedding of `_create_nfl_style_key` (lines 346-349):
`f"2025{week_padded}{sequence:02d}"` with `week_padded = week.zfill(2) if
week.isdigit() else '00'`. -/
def create_nfl_style_key (week : String) (sequence : Nat) : String :=
  "2025" ++ (if str_isdigit week then zfill 2 week else "00") ++
    pad_nat 2 sequence

/-- Loop body of `_generate_game_identifiers` (lines 324-338 of
`src/games_fetch_nfl.py`) over the already-sorted list: `i` is the
enumeration index and `counters` the `week_game_counters` dict. -/
def assign_ids : Nat → List (String × Nat) → List NGame → List NGame
  | _, _, [] => []
  | i, counters, g :: gs =>
    let week := pyOrDefault g.week "WX"
    let cnt := (dict_lookup counters week).getD 0 + 1
    { g with
        game_id := "2025-" ++ pad_nat 3 (i + 1)
        week_game_id := "2025-W" ++ week ++ "G" ++ toString cnt
        game_code := create_team_based_code g week
        nfl_game_key := create_nfl_style_key week (i + 1) } ::
      assign_ids (i + 1) (dict_assign counters week cnt) gs

/-- Embedding of `_generate_game_identifiers` (lines 310-338): sort the
games chronologically by `(week, date, time_et)` (a stable sort, as in
Python) and assign the four identifier formats positionally. -/
def generate_game_identifiers (games : List NGame) : List NGame :=
  assign_ids 0 [] (insertion_sort_by game_sort_le games)

/-- The fields compared by `_detect_changes`, `_analyze_change_statistics`
and `_compare_with_backup` (their shared `fields_to_compare` list). -/
inductive GField where
  | week
  | date
  | away_team
  | home_team
  | location_note
  | time_et
  | time_local
  | network
deriving DecidableEq

/-- Python `game.get(field, '')` for the compared fields (the keys are
always present in these dicts, so the default never fires and the stored
value — possibly `None` — is returned). -/
def game_get (g : NGame) : GField → Option String
  | .week => g.week
  | .date => g.date
  | .away_team => g.away_team
  | .home_team => g.home_team
  | .location_note => g.location_note
  | .time_et => g.time_et
  | .time_local => g.time_local
  | .network => g.network

/-- The literal `fields_to_compare` list of `src/games_fetch_nfl.py`
(lines 466-467, 698-699, 760-761). -/
def fields_to_compare : List GField :=
  [.week, .date, .away_team, .home_team, .location_note, .time_et,
    .time_local, .network]

/-- Field names as they appear in the Python source and the diff log. -/
def gfield_name : GField → String
  | .week => "week"
  | .date => "date"
  | .away_team => "away_team"
  | .home_team => "home_team"
  | .location_note => "location_note"
  | .time_et => "time_et"
  | .time_local => "time_local"
  | .network => "network"

/-- Inner comparison shared by `_detect_changes` and
`_analyze_change_statistics`: some compared field of `game` differs from
`existing` under `str()` coercion. -/
def game_differs (game existing : NGame) : Bool :=
  fields_to_compare.any
    (fun f => pyStr (game_get game f) != pyStr (game_get existing f))

/-- Embedding of `_detect_changes` (lines 445-473 of
`src/games_fetch_nfl.py`): report a change when the counts differ, when a
current game's id is absent from the loaded dict, or when any compared
field differs. -/
def detect_changes (existing_games : List (String × NGame))
    (games : List NGame) : Bool :=
  if existing_games.length ≠ games.length then true
  else
    games.any (fun game =>
      match dict_lookup existing_games game.game_id with
      | none => true
      | some existing => game_differs game existing)

/-- The statistics dict built by `_analyze_change_statistics`. -/
structure ChangeStats where
  new_games : Nat
  edited_games : Nat
  unchanged_games : Nat
  total_existing : Nat
  total_current : Nat
deriving DecidableEq

/-- Loop body of `_analyze_change_statistics` for one current game:
classify it as new, edited or unchanged against the previously loaded
dict. -/
def analyze_step (existing_games : List (String × NGame))
    (stats : ChangeStats) (game : NGame) : ChangeStats :=
  match dict_lookup existing_games game.game_id with
  | none => { stats with new_games := stats.new_games + 1 }
  | some existing =>
    if game_differs game existing then
      { stats with edited_games := stats.edited_games + 1 }
    else
      { stats with unchanged_games := stats.unchanged_games + 1 }

/-- Embedding of `_analyze_change_statistics` (lines 672-711 of
`src/games_fetch_nfl.py`): classify every current game as new, edited or
unchanged against the previously loaded dict. -/
def analyze_change_statistics (existing_games : List (String × NGame))
    (games : List NGame) : ChangeStats :=
  games.foldl (analyze_step existing_games)
    { new_games := 0, edited_games := 0, unchanged_games := 0
      total_existing := existing_games.length, total_current := games.length }

/-- A single quote character, used by the diff log format of
`_compare_with_backup`. -/
def squote : String :=
  (Char.ofNat 39).toString

/-- One line of the field-diff list built by `_compare_with_backup`
(line 767 of `src/games_fetch_nfl.py`):
the f-string rendering `field: 'old' → 'new'`. -/
def field_diff_msg (f : GField) (old_val new_val : String) : String :=
  gfield_name f ++ ": " ++ squote ++ old_val ++ squote ++ " → " ++ squote ++
    new_val ++ squote

/-- The `changes` list accumulated by `_compare_with_backup` for one game:
one rendered diff per compared field whose `str()` value changed, in field
order. -/
def game_changes (existing game : NGame) : List String :=
  fields_to_compare.filterMap
    (fun f =>
      let old_val := pyStr (game_get existing f)
      let new_val := pyStr (game_get game f)
      if old_val ≠ new_val then some (field_diff_msg f old_val new_val)
      else none)

/-- The `comparison_stats` dict built by `_compare_with_backup`. -/
structure ComparisonStats where
  new_games : Nat
  edited_games : Nat
  unchanged_games : Nat
  removed_games : Nat
  backup_total : Nat
  current_total : Nat
  edited_details : List String
deriving DecidableEq

/-- Embedding of `_compare_with_backup` (lines 723-785 of
`src/games_fetch_nfl.py`), with the backup store passed explicitly: `None`
when there is no backup to compare against (the early return), otherwise
the per-game classification against the backup dict plus the count of
backup keys missing from the current id set. -/
def compare_with_backup (backup_games : List (String × NGame))
    (games : List NGame) : Option ComparisonStats :=
  if backup_games.isEmpty then none
  else
    some <|
      let step := games.foldl
        (fun (stats : ComparisonStats) game =>
          match dict_lookup backup_games game.game_id with
          | none => { stats with new_games := stats.new_games + 1 }
          | some existing =>
            let changes := game_changes existing game
            if changes ≠ [] then
              { stats with
                  edited_games := stats.edited_games + 1
                  edited_details := stats.edited_details ++
                    ["Game " ++ game.game_id ++ ": " ++
                      String.intercalate ", " changes] }
            else
              { stats with unchanged_games := stats.unchanged_games + 1 })
        { new_games := 0, edited_games := 0, unchanged_games := 0
          removed_games := 0, backup_total := backup_games.length
          current_total := games.length, edited_details := [] }
      { step with
          removed_games :=
            ((dict_keys backup_games).filter
              (fun k => !(games.any (fun g => g.game_id == k)))).length }

/-- A `game` element of the persisted `games.xml` as the parser sees it:
the four id attributes (`element.get` returns `None` when an attribute is
absent), and the six text-bearing child elements, each either absent
(`None`) or present with a `.text` that is itself a string or `None`
(ElementTree parses an empty element's text as `None`). -/
structure GameElem where
  id_attr : Option String := none
  week_game_id_attr : Option String := none
  game_code_attr : Option String := none
  nfl_game_key_attr : Option String := none
  away_team_elem : Option (Option String) := none
  home_team_elem : Option (Option String) := none
  location_note_elem : Option (Option String) := none
  local_kickoff_elem : Option (Option String) := none
  et_kickoff_elem : Option (Option String) := none
  network_elem : Option (Option String) := none
deriving DecidableEq

/-- The parsed `nfl_schedule` document: `week` elements (with their
`number` attribute) containing `date` elements (with their `value`
attribute) containing `game` elements, exactly the nesting that
`_write_xml_file` produces and `_load_xml_games` walks. -/
abbrev NflDoc := List (String × List (String × List GameElem))

/-- State of an XML file on disk as far as `_load_xml_games` can observe
it: absent, present but unparseable, or parsed into a document. -/
inductive XmlFile where
  | missing
  | malformed
  | wellFormed (doc : NflDoc)
deriving DecidableEq

/-- Embedding of `_get_xml_text` (lines 566-569 of
`src/games_fetch_nfl.py`): `''` when the element is absent, its (possibly
`None`) text when present. -/
def get_xml_text : Option (Option String) → Option String
  | none => some ""
  | some t => t

/-- One `game` element as read by the inner loop of `_load_xml_games`
(lines 537-557): skip the element when its `id` attribute is falsy,
otherwise build the `game_data` dict keyed by that id, taking `week` and
`date` from the surrounding elements and the texts via `_get_xml_text`
(note the source reads `time_et` from `local_kickoff` and `time_local`
from `et_kickoff`, mirroring how `_write_xml_file` wrote them). -/
def load_game_entry (week_number date_value : String) (ge : GameElem) :
    Option (String × NGame) :=
  match ge.id_attr with
  | none => none
  | some game_id =>
    if game_id = "" then none
    else
      some (game_id,
        { game_id := game_id
          week_game_id := ge.week_game_id_attr.getD ""
          game_code := ge.game_code_attr.getD ""
          nfl_game_key := ge.nfl_game_key_attr.getD ""
          week := some week_number
          date := some date_value
          away_team := get_xml_text ge.away_team_elem
          home_team := get_xml_text ge.home_team_elem
          location_note := get_xml_text ge.location_note_elem
          time_et := get_xml_text ge.local_kickoff_elem
          time_local := get_xml_text ge.et_kickoff_elem
          network := get_xml_text ge.network_elem })

/-- Result of `_load_xml_games`: the games dict, plus whether the
`XML_READ_ERROR` warning was logged (the `except` branch). -/
structure LoadResult where
  games : List (String × NGame)
  warned : Bool
deriving DecidableEq

/-- Embedding of `_load_xml_games` (lines 512-564 of
`src/games_fetch_nfl.py`): an empty dict when the file does not exist; the
non-fatal `except` branch (log a warning, return an empty dict) when it
cannot be parsed; otherwise the nested week → date → game walk inserting
every game with a truthy id into the dict. -/
def load_xml_games : XmlFile → LoadResult
  | .missing => { games := [], warned := false }
  | .malformed => { games := [], warned := true }
  | .wellFormed doc =>
    { games :=
        doc.foldl
          (fun d wk =>
            wk.2.foldl
              (fun d dt =>
                dt.2.foldl
                  (fun d ge =>
                    match load_game_entry wk.1 dt.1 ge with
                    | some (k, v) => dict_assign d k v
                    | none => d)
                  d)
              d)
          []
      warned := false }

/-- Keys of `xs` in first-occurrence order, given the keys already seen:
the iteration order of a Python dict built by appending under each key. -/
def first_dedup_aux (seen : List String) : List String → List String
  | [] => []
  | k :: ks =>
    if k ∈ seen then first_dedup_aux seen ks
    else k :: first_dedup_aux (k :: seen) ks

/-- Keys of a list in first-occurrence order. -/
def first_dedup (ks : List String) : List String :=
  first_dedup_aux [] ks

/-- The dict-of-lists grouping idiom of `_group_games_by_week` and
`_group_games_by_date`: one bucket per key in first-occurrence order, each
bucket holding its members in list order. -/
def group_by_key {α : Type} (key : α → String) (xs : List α) :
    List (String × List α) :=
  (first_dedup (xs.map key)).map
    (fun k => (k, xs.filter (fun x => key x == k)))

/-- Grouping key of `_group_games_by_week` (line 604 of
`src/games_fetch_nfl.py`): `game['week'] if game['week'] else 'Unknown'`. -/
def week_group_key (g : NGame) : String :=
  pyOrDefault g.week "Unknown"

/-- Grouping key of `_group_games_by_date` (line 614): `game['date'] or
'Unknown'`. -/
def date_group_key (g : NGame) : String :=
  pyOrDefault g.date "Unknown"

/-- Week ordering of `_write_xml_file` (line 582): sort the week keys by
`int(x) if x.isdigit() else float('inf')`; `none` plays the role of
`float('inf')` and `String.toNat?` succeeds exactly on the keys `isdigit`
accepts. -/
def week_order_le (a b : String × List NGame) : Bool :=
  match a.1.toNat?, b.1.toNat? with
  | some m, some n => m ≤ n
  | some _, none => true
  | none, some _ => false
  | none, none => true

/-- Element text after one serialize/parse round trip: ElementTree writes
text `None` and text `""` both as an empty element, whose parsed `.text`
is `None`; non-empty single-line text survives verbatim. -/
def text_norm : Option String → Option String
  | none => none
  | some s => if s = "" then none else some s

/-- The `game` element that `_add_game_to_xml` (lines 620-651 of
`src/games_fetch_nfl.py`) writes for `game`, as it reads back after the
serialize/parse round trip: the four ids as attributes (`game_id` through
`str()`, the others verbatim), the teams and times as child elements with
the game's text, the `location_note` child only when the note is truthy,
and `time_et`/`time_local` stored under `local_kickoff`/`et_kickoff`. -/
def game_elem_of (g : NGame) : GameElem :=
  { id_attr := some g.game_id
    week_game_id_attr := some g.week_game_id
    game_code_attr := some g.game_code
    nfl_game_key_attr := some g.nfl_game_key
    away_team_elem := some (text_norm g.away_team)
    home_team_elem := some (text_norm g.home_team)
    location_note_elem :=
      if pyTruthy g.location_note then some (text_norm g.location_note)
      else none
    local_kickoff_elem := some (text_norm g.time_et)
    et_kickoff_elem := some (text_norm g.time_local)
    network_elem := some (text_norm g.network) }

/-- The document `_write_xml_file` (lines 571-598) persists for `games`,
as `_load_xml_games` later parses it: games grouped by week (weeks sorted
numerically with non-numeric weeks last, Python's stable `sorted`), then
by date in first-occurrence order, each leaf through `_add_game_to_xml`. -/
def doc_of_games (games : List NGame) : NflDoc :=
  (insertion_sort_by week_order_le (group_by_key week_group_key games)).map
    (fun wb =>
      (wb.1,
        (group_by_key date_group_key wb.2).map
          (fun db => (db.1, db.2.map game_elem_of))))

/-- On-disk state seen by `_save_to_xml`: the store file `games.xml` and
the backup file `games_backup.xml`. -/
structure FileSys where
  xml : XmlFile
  backup : XmlFile
deriving DecidableEq

/-- Embedding of `_create_backup` (lines 420-443 of
`src/games_fetch_nfl.py`): `False` without touching anything when the
store file does not exist; otherwise remove any old backup and copy the
store over it.  `copy_ok = false` models the copy raising (for example a
permission error): the exception is caught, `BACKUP_FAILED` is logged, and
`False` is returned — with the old backup already removed. -/
def create_backup (fs : FileSys) (copy_ok : Bool) : Bool × FileSys :=
  match fs.xml with
  | .missing => (false, fs)
  | x =>
    if copy_ok then (true, { fs with backup := x })
    else (false, { fs with backup := .missing })

/-- Outcome of one `_save_to_xml` call: the resulting file system, whether
`_write_xml_file` ran (the mutating save), whether the backup was created,
and the change statistics computed on the update path. -/
structure SaveResult where
  fs : FileSys
  saved : Bool
  backup_created : Bool
  stats : Option ChangeStats
deriving DecidableEq

/-- Embedding of `_save_to_xml` (lines 382-418 of
`src/games_fetch_nfl.py`): do nothing without games; otherwise create the
backup, load the existing store, and either create a fresh file, rewrite
it when `_detect_changes` reports a difference, or leave it alone and
delete the now-unnecessary backup.  The backup result gates only the
backup comparison and cleanup, never the save itself. -/
def save_to_xml (fs : FileSys) (games : List NGame) (copy_ok : Bool) :
    SaveResult :=
  if games = [] then
    { fs := fs, saved := false, backup_created := false, stats := none }
  else
    let bc := create_backup fs copy_ok
    let existing_games := (load_xml_games bc.2.xml).games
    if existing_games.isEmpty then
      { fs := { bc.2 with xml := .wellFormed (doc_of_games games) }
        saved := true, backup_created := bc.1, stats := none }
    else if detect_changes existing_games games then
      { fs := { bc.2 with xml := .wellFormed (doc_of_games games) }
        saved := true, backup_created := bc.1
        stats := some (analyze_change_statistics existing_games games) }
    else
      if bc.1 then
        { fs := { bc.2 with backup := .missing }
          saved := false, backup_created := true, stats := none }
      else
        { fs := bc.2, saved := false, backup_created := false, stats := none }

/-- Embedding of `_save_formatted_xml` (lines 653-666 of
`src/games_fetch_nfl.py`, duplicated at lines 617-630 of
`src/games/_02games_nfl.py`) at the byte level: the destination is opened
with mode `w` — truncating whatever was there — and the pretty-printed
text is written directly to it; there is no temporary path.
`interrupt = some k` models the run dying after `k` characters: the
destination then holds that prefix of the new text, the prior content
being already gone. -/
def save_formatted_xml (prior_content : Option String) (pretty_xml : String)
    (interrupt : Option Nat) : Option String :=
  match interrupt with
  | none => some pretty_xml
  | some k => some (String.mk (pretty_xml.data.take k))

/-- A child element of a `<team>` element in `src/tools/teams_builder.py`:
its tag and its (possibly `None`) text. -/
structure XChild where
  tag : String
  text : Option String
deriving DecidableEq

/-- A `<team>` element, as the list of its child elements. -/
abbrev TeamElem := List XChild

/-- Python `element.findtext(tag)`: `None` when no child with that tag
exists, otherwise the child's text with `None` read as `""`. -/
def findtext (t : TeamElem) (tag : String) : Option String :=
  (t.find? (fun c => c.tag == tag)).map (fun c => c.text.getD "")

/-- The natural key of a team record: `nfl_team.findtext("name")`. -/
def team_name (t : TeamElem) : Option String :=
  findtext t "name"

/-- Embedding of `elements_equal` (lines 32-33 of
`src/tools/teams_builder.py`): same tag and same stripped text, with
`None` text read as `""`. -/
def elements_equal (a b : XChild) : Bool :=
  a.tag == b.tag && (a.text.getD "").trim == (b.text.getD "").trim

/-- Embedding of `sync_team_fields` (lines 36-49 of
`src/tools/teams_builder.py`): walk the source team's children; append a
deep copy of any child whose tag the existing team lacks, overwrite the
text of the first same-tagged child when `elements_equal` rejects it, and
report whether anything was modified. -/
def sync_team_fields (existing source : TeamElem) : TeamElem × Bool :=
  source.foldl
    (fun (st : TeamElem × Bool) child =>
      match st.1.findIdx? (fun c => c.tag == child.tag) with
      | none => (st.1 ++ [child], true)
      | some i =>
        match st.1.get? i with
        | none => st
        | some existing_child =>
          if elements_equal existing_child child then st
          else (st.1.set i { existing_child with text := child.text }, true))
    (existing, false)

/-- Embedding of `build_team_map` (lines 25-29): the dict comprehension
`{team.findtext("name"): team}` over the football node's teams, here
mapping each name — `None` included — to the index of the last team
carrying it (a later comprehension entry overwrites an earlier one; the
index stands for Python's reference to the element, which stays valid
because the loop only appends after it). -/
def build_team_map (teams : List TeamElem) : List (Option String × Nat) :=
  (teams.enum.map (fun p => (team_name p.2, p.1))).foldl
    (fun m p => dict_assign m p.1 p.2) []

/-- State threaded through the `main` loop of `teams_builder.py`: the
children of the Football `sport` node and the `changes` counter. -/
structure BuilderState where
  football_teams : List TeamElem
  changes : Nat
deriving DecidableEq

/-- One iteration of the `main` loop (lines 61-74 of
`src/tools/teams_builder.py`): skip a source team whose name is falsy
(`if not name: continue`); sync an already-known team in place, counting a
change only when `sync_team_fields` modified it; append an unknown team
and count a change. -/
def teams_builder_step (tmap : List (Option String × Nat))
    (st : BuilderState) (nfl_team : TeamElem) : BuilderState :=
  let name := team_name nfl_team
  if pyTruthy name = false then st
  else
    match dict_lookup tmap name with
    | some i =>
      match st.football_teams.get? i with
      | none => st
      | some existing =>
        let sync := sync_team_fields existing nfl_team
        if sync.2 then
          { football_teams := st.football_teams.set i sync.1
            changes := st.changes + 1 }
        else st
    | none =>
      { football_teams := st.football_teams ++ [nfl_team]
        changes := st.changes + 1 }

/-- Embedding of `main` in `src/tools/teams_builder.py` (lines 52-80),
with the parsed inputs passed explicitly: build the name map of the
Football node once, then fold the loop body over the source teams.  The
caller writes `teams.xml` back only when the resulting `changes` counter
is positive. -/
def teams_builder_run (nfl_teams : List TeamElem)
    (football_teams : List TeamElem) : BuilderState :=
  nfl_teams.foldl (teams_builder_step (build_team_map football_teams))
    { football_teams := football_teams, changes := 0 }

/-- Flattened list of the `(game_id, game_data)` entries that
`_load_xml_games` inserts into its dict while walking a parsed document,
in traversal order; used to reason about the nested loops of the
loader. -/
def load_entries (doc : NflDoc) : List (String × NGame) :=
  doc.flatMap
    (fun wk =>
      wk.2.flatMap (fun dt => dt.2.filterMap (load_game_entry wk.1 dt.1)))

/-- The record `_load_xml_games` reconstructs for a game `g` after
`_write_xml_file` persisted it: the ids survive as attributes, `week` and
`date` come back as the grouping keys (`'Unknown'` when falsy), a missing
`location_note` element reads back as `''`, and the text fields pass
through the serialize/parse normalisation. -/
def xml_loaded_game (g : NGame) : NGame :=
  { game_id := g.game_id
    week_game_id := g.week_game_id
    game_code := g.game_code
    nfl_game_key := g.nfl_game_key
    week := some (week_group_key g)
    date := some (date_group_key g)
    away_team := text_norm g.away_team
    home_team := text_norm g.home_team
    location_note :=
      if pyTruthy g.location_note then text_norm g.location_note
      else some ""
    time_et := text_norm g.time_et
    time_local := text_norm g.time_local
    network := text_norm g.network }

/-- Conditions under which a record survives the XML round trip with all
compared fields intact under `str()` coercion: a truthy `game_id` (else
the loader skips it), truthy `week` and `date` (else they come back as
`'Unknown'` while the in-memory value coerces to `'None'` or `''`), a
present `location_note` (a `None` note reads back as `''`), and text
fields that are not the empty string (an empty element's text reads back
as `None`; an absent `None` text round-trips to `None` and still compares
equal). -/
abbrev xml_roundtrip_safe (g : NGame) : Prop :=
  g.game_id ≠ "" ∧
  pyTruthy g.week = true ∧
  pyTruthy g.date = true ∧
  g.away_team ≠ some "" ∧
  g.home_team ≠ some "" ∧
  g.location_note.isSome = true ∧
  g.time_et ≠ some "" ∧
  g.time_local ≠ some "" ∧
  g.network ≠ some ""

/-- Validity of a source team record in the `main` loop of
`teams_builder.py`: its natural-key field `name` must be truthy
(`if not name: continue`). -/
def team_name_valid (t : TeamElem) : Bool :=
  pyTruthy (team_name t)

/-- A concrete game record whose every field is round-trip safe, used by
the concrete theorems below. -/
def sample_game : NGame :=
  { week := some "1"
    date := some "Sept 4"
    away_team := some "Cowboys"
    home_team := some "Eagles"
    location_note := some ""
    time_et := some "8:20 PM"
    time_local := some "7:20 PM"
    network := some "FOX"
    game_id := "2025-001"
    week_game_id := "2025-W1G1"
    game_code := "2025W1-cowboys@eagles"
    nfl_game_key := "20250101" }

/-- `sample_game` with a different network, a genuine field edit. -/
def sample_game_nbc : NGame :=
  { sample_game with network := some "NBC" }

/-- `sample_game` with no week context (`current_week` still `None` when
the game row was extracted). -/
def sample_game_no_week : NGame :=
  { sample_game with week := none }

/-- `sample_game` with a different derived `nfl_game_key` but identical
compared fields. -/
def sample_game_key_diff : NGame :=
  { sample_game with nfl_game_key := "20250199" }

/-- The store file produced by persisting `[sample_game]`. -/
def sample_store : XmlFile :=
  .wellFormed (doc_of_games [sample_game])

/-! Basic lemmas about the embedded Python dict operations. -/

theorem dict_lookup_assign_self {κ α : Type} [BEq κ] [LawfulBEq κ]
    (d : List (κ × α)) (k : κ) (v : α) :
    dict_lookup (dict_assign d k v) k = some v := by
  induction d with
  | nil => simp [dict_assign, dict_lookup, List.find?]
  | cons p d ih =>
    by_cases h : p.1 == k
    · simp [dict_assign, h, dict_lookup, List.find?]
    · simp only [dict_assign, h, if_neg, Bool.false_eq_true, not_false_iff,
        ite_false]
      simpa [dict_lookup, List.find?, h] using ih

theorem dict_lookup_assign_ne {κ α : Type} [BEq κ] [LawfulBEq κ]
    (d : List (κ × α)) (k k' : κ) (v : α) (h : k' ≠ k) :
    dict_lookup (dict_assign d k v) k' = dict_lookup d k' := by
  induction d with
  | nil =>
    have hk : (k == k') = false := by
      simpa using fun he => h he.symm
    simp [dict_assign, dict_lookup, List.find?, hk]
  | cons p d ih =>
    by_cases hp : p.1 == k
    · have hpk : p.1 = k := by simpa using hp
      have hp' : (p.1 == k') = false := by
        simp [hpk]
        exact fun he => h he.symm
      simp [dict_assign, hp, dict_lookup, List.find?, hp']
    · simp only [dict_assign, hp, Bool.false_eq_true, not_false_iff,
        if_neg, ite_false]
      by_cases hq : p.1 == k'
      · simp [dict_lookup, List.find?, hq]
      · simpa [dict_lookup, List.find?, hq] using ih

theorem dict_contains_iff_mem_keys {κ α : Type} [BEq κ] [LawfulBEq κ]
    (d : List (κ × α)) (k : κ) :
    dict_contains d k = true ↔ k ∈ dict_keys d := by
  constructor
  · intro h
    obtain ⟨p, hp, he⟩ := List.any_eq_true.mp h
    exact (beq_iff_eq.mp he) ▸ List.mem_map.mpr ⟨p, hp, rfl⟩
  · intro h
    obtain ⟨p, hp, he⟩ := List.mem_map.mp h
    exact List.any_eq_true.mpr ⟨p, hp, by simp [he]⟩

theorem dict_keys_assign {κ α : Type} [BEq κ] [LawfulBEq κ]
    (d : List (κ × α)) (k : κ) (v : α) :
    dict_keys (dict_assign d k v) =
      if dict_contains d k then dict_keys d else dict_keys d ++ [k] := by
  induction d with
  | nil => simp [dict_assign, dict_keys, dict_contains]
  | cons p d ih =>
    by_cases h : p.1 == k
    · simp [dict_assign, h, dict_keys, dict_contains, List.any_cons]
    · have hcc : dict_contains (p :: d) k = dict_contains d k := by
        simp [dict_contains, List.any_cons, h]
      simp only [dict_assign, h, Bool.false_eq_true, not_false_iff,
        ite_false]
      simp only [dict_keys, List.map_cons] at ih ⊢
      rw [ih, hcc]
      by_cases hc : dict_contains d k
      · simp [hc]
      · simp [hc]

theorem dict_keys_assign_nodup {κ α : Type} [BEq κ] [LawfulBEq κ]
    (d : List (κ × α)) (k : κ) (v : α) (h : (dict_keys d).Nodup) :
    (dict_keys (dict_assign d k v)).Nodup := by
  rw [dict_keys_assign]
  by_cases hc : dict_contains d k
  · simpa [hc]
  · have hk : k ∉ dict_keys d := fun hm =>
      hc ((dict_contains_iff_mem_keys d k).mpr hm)
    simp only [hc, Bool.false_eq_true, if_neg, not_false_iff, ite_false]
    simp [List.nodup_append, h, hk]

/-! Lemmas about `merge_games` and `remove_duplicate_games`. -/

theorem merge_games_merged (existing_games : List (String × CGame))
    (games : List CGame) :
    (merge_games existing_games games).merged =
      games.foldl (fun m g => dict_assign m g.id g) existing_games := by
  suffices h : ∀ (gs : List CGame) (r : MergeResult),
      (gs.foldl merge_games_step r).merged =
        gs.foldl (fun m g => dict_assign m g.id g) r.merged by
    exact h games _
  intro gs
  induction gs with
  | nil => intro r; rfl
  | cons g gs ih =>
    intro r
    simp only [List.foldl_cons]
    rw [ih]
    congr 1
    by_cases hc : dict_contains r.merged g.id <;>
      simp [merge_games_step, hc]

theorem foldl_assign_lookup_ne (games : List CGame)
    (prior : List (String × CGame)) (k : String)
    (habs : ∀ g ∈ games, g.id ≠ k) :
    dict_lookup (games.foldl (fun m g => dict_assign m g.id g) prior) k =
      dict_lookup prior k := by
  induction games generalizing prior with
  | nil => rfl
  | cons g gs ih =>
    simp only [List.foldl_cons]
    rw [ih _ (fun g' hg' => habs g' (List.mem_cons_of_mem g hg'))]
    exact dict_lookup_assign_ne prior g.id k g
      (fun he => habs g (List.mem_cons_self g gs) he.symm)

theorem foldl_assign_keys_nodup (games : List CGame)
    (d : List (String × CGame)) (h : (dict_keys d).Nodup) :
    (dict_keys
      (games.foldl (fun m g => dict_assign m g.id g) d)).Nodup := by
  induction games generalizing d with
  | nil => exact h
  | cons g gs ih =>
    simp only [List.foldl_cons]
    exact ih _ (dict_keys_assign_nodup d g.id g h)

theorem remove_dup_aux_find (gs : List NGame) :
    ∀ (seen : List String) (k : String), k ∉ seen →
      (remove_duplicate_games_aux seen gs).find?
          (fun g => natural_key g == k) =
        gs.find? (fun g => natural_key g == k) := by
  induction gs with
  | nil => intro seen k _; rfl
  | cons g gs ih =>
    intro seen k hk
    by_cases he : natural_key g ∈ seen
    · have hne : (natural_key g == k) = false := by
        simp only [beq_eq_false_iff_ne, ne_eq]
        exact fun hgk => hk (hgk ▸ he)
      simp only [remove_duplicate_games_aux, he, if_pos, List.find?, hne]
      exact ih seen k hk
    · simp only [remove_duplicate_games_aux, he, not_false_iff, if_neg,
        ite_false]
      by_cases hgk : natural_key g == k
      · simp [List.find?, hgk]
      · simp only [List.find?, hgk]
        exact ih (natural_key g :: seen) k
          (by
            intro hm
            rcases List.mem_cons.mp hm with h1 | h2
            · exact absurd (by simp [h1]) hgk
            · exact hk h2)

/-! Claim theorems C1, C2, C4. -/

/-- C1 (confirmed): removed-record retention under the default policy.
For every prior snapshot and list of new records, a record whose key
occurs in the prior snapshot but matches no new record's key is still
present, unchanged, in the dict produced by `_merge_games`. -/
theorem merge_retains_records_absent_from_new
    (prior : List (String × CGame)) (games : List CGame) (k : String)
    (hk : k ∈ dict_keys prior) (habs : ∀ g ∈ games, g.id ≠ k) :
    dict_lookup (merge_games prior games).merged k = dict_lookup prior k := by
  rw [merge_games_merged]
  exact foldl_assign_lookup_ne games prior k habs

/-- Witness for C1, the spec's own scenario: prior keys `{A, B}`, new
records containing only `A` — the merged snapshot still holds `B`'s record
unchanged. -/
theorem merge_retains_records_absent_from_new_witness :
    "B" ∈ dict_keys
        [("A", ({ id := "A", network := "FOX" } : CGame)),
          ("B", { id := "B", network := "NBC" })] ∧
    (∀ g ∈ [({ id := "A", network := "CBS" } : CGame)], g.id ≠ "B") ∧
    dict_lookup
        (merge_games
          [("A", { id := "A", network := "FOX" }),
            ("B", { id := "B", network := "NBC" })]
          [{ id := "A", network := "CBS" }]).merged "B" =
      dict_lookup
        [("A", ({ id := "A", network := "FOX" } : CGame)),
          ("B", { id := "B", network := "NBC" })] "B" :=
  ⟨by decide, by decide,
    merge_retains_records_absent_from_new _ _ "B" (by decide) (by decide)⟩

/-- C2 (confirmed): key uniqueness.  A single `_merge_games` call
preserves the at-most-one-record-per-key invariant of the prior snapshot,
and any sequence of merges starting from the empty snapshot satisfies it. -/
theorem merge_preserves_key_uniqueness
    (prior : List (String × CGame)) (h : (dict_keys prior).Nodup)
    (games : List CGame) (runs : List (List CGame)) :
    (dict_keys (merge_games prior games).merged).Nodup ∧
    (dict_keys
        (runs.foldl (fun snap gs => (merge_games snap gs).merged)
          [])).Nodup := by
  constructor
  · rw [merge_games_merged]
    exact foldl_assign_keys_nodup games prior h
  · suffices hs : ∀ (rs : List (List CGame)) (snap : List (String × CGame)),
        (dict_keys snap).Nodup →
        (dict_keys
            (rs.foldl (fun s gs => (merge_games s gs).merged) snap)).Nodup by
      exact hs runs [] (by simp [dict_keys])
    intro rs
    induction rs with
    | nil => intro snap hsnap; exact hsnap
    | cons gs rss ih =>
      intro snap hsnap
      simp only [List.foldl_cons]
      refine ih _ ?_
      rw [merge_games_merged]
      exact foldl_assign_keys_nodup gs snap hsnap

/-- Witness for C2 at a concrete prior snapshot and merge sequence. -/
theorem merge_preserves_key_uniqueness_witness :
    (dict_keys [("A", ({ id := "A" } : CGame))]).Nodup ∧
    ((dict_keys
        (merge_games [("A", { id := "A" })]
          [{ id := "A", network := "CBS" }, { id := "C" }]).merged).Nodup ∧
      (dict_keys
          ([[({ id := "A" } : CGame)], [{ id := "D" }]].foldl
            (fun snap gs => (merge_games snap gs).merged) [])).Nodup) :=
  ⟨by decide,
    merge_preserves_key_uniqueness [("A", { id := "A" })] (by decide)
      [{ id := "A", network := "CBS" }, { id := "C" }]
      [[{ id := "A" }], [{ id := "D" }]]⟩

/-- C4 (counterexample): the claim says the later of two same-key records
wins, so the merged data for the spec's scenario would carry network CBS;
`_remove_duplicate_games` in fact keeps the first occurrence and silently
drops the later one, so FOX survives, and nothing logs a warning. -/
theorem duplicate_key_later_record_wins_cex :
    natural_key
        ({ week := some "1", date := some "Sept 4",
            away_team := some "Cowboys", home_team := some "Eagles",
            network := some "FOX" } : NGame) =
      natural_key
        { week := some "1", date := some "Sept 4",
          away_team := some "Cowboys", home_team := some "Eagles",
          network := some "CBS" } ∧
    remove_duplicate_games
        [{ week := some "1", date := some "Sept 4",
            away_team := some "Cowboys", home_team := some "Eagles",
            network := some "FOX" },
          { week := some "1", date := some "Sept 4",
            away_team := some "Cowboys", home_team := some "Eagles",
            network := some "CBS" }] =
      [{ week := some "1", date := some "Sept 4",
          away_team := some "Cowboys", home_team := some "Eagles",
          network := some "FOX" }] := by
  exact ⟨by decide, by decide⟩

/-- C4 (amended): when the new-records list contains two records with the
same natural key, `_remove_duplicate_games` keeps the record occurring
earlier in iteration order — for every key, the record it retains is the
first occurrence in input order — and the later one is silently dropped
with no warning of any kind (the function returns only the filtered
list).  Only records that reach `_merge_games` carrying the same `id`
resolve the other way: the dict assignment makes the later one win. -/
theorem duplicate_key_resolution :
    (∀ (games : List NGame) (k : String),
      (remove_duplicate_games games).find? (fun g => natural_key g == k) =
        games.find? (fun g => natural_key g == k)) ∧
    (∀ (existing : List (String × CGame)) (gs : List CGame) (g : CGame),
      dict_lookup (merge_games existing (gs ++ [g])).merged g.id =
        some g) := by
  constructor
  · intro games k
    exact remove_dup_aux_find games [] k (List.not_mem_nil k)
  · intro existing gs g
    rw [merge_games_merged, List.foldl_append]
    simp only [List.foldl_cons, List.foldl_nil]
    exact dict_lookup_assign_self _ g.id g

/-! Lemmas about the stable sort and the identifier assignment. -/

theorem ordered_insert_perm {α : Type} (le : α → α → Bool) (x : α)
    (l : List α) : (ordered_insert le x l).Perm (x :: l) := by
  induction l with
  | nil => exact List.Perm.refl _
  | cons y ys ih =>
    by_cases h : le x y
    · simp [ordered_insert, h]
    · simp only [ordered_insert, h, Bool.false_eq_true, not_false_iff,
        ite_false]
      exact (ih.cons y).trans (List.Perm.swap x y ys)

theorem insertion_sort_by_perm {α : Type} (le : α → α → Bool)
    (l : List α) : (insertion_sort_by le l).Perm l := by
  induction l with
  | nil => exact List.Perm.refl _
  | cons x xs ih =>
    exact (ordered_insert_perm le x (insertion_sort_by le xs)).trans
      (ih.cons x)

theorem insertion_sort_by_length {α : Type} (le : α → α → Bool)
    (l : List α) : (insertion_sort_by le l).length = l.length :=
  (insertion_sort_by_perm le l).length_eq

theorem assign_ids_map_game_id (gs : List NGame) :
    ∀ (i : Nat) (counters : List (String × Nat)),
      (assign_ids i counters gs).map (fun g => g.game_id) =
        (List.range gs.length).map
          (fun j => "2025-" ++ pad_nat 3 (i + j + 1)) := by
  induction gs with
  | nil => intro i counters; rfl
  | cons g gs ih =>
    intro i counters
    simp only [assign_ids, List.map_cons, List.length_cons,
      List.range_succ_eq_map, List.map_map]
    refine List.cons_eq_cons.mpr ⟨rfl, ?_⟩
    rw [ih]
    apply List.map_congr_left
    intro j _
    simp only [Function.comp_apply, Nat.succ_eq_add_one]
    congr 2
    omega

/-- C10 (confirmed): positional natural keys.  After the chronological
sort, `_generate_game_identifiers` gives the game at 0-based index `i` the
id `"2025-"` followed by `i+1` zero-padded to three digits, so for `N`
games the id list is exactly `2025-001 … 2025-NNN` — a key depends only on
the game's position among all fetched games, so inserting or removing an
earlier game shifts every later key. -/
theorem nfl_game_ids_are_positional (games : List NGame) :
    (generate_game_identifiers games).map (fun g => g.game_id) =
      (List.range games.length).map
        (fun i => "2025-" ++ pad_nat 3 (i + 1)) := by
  unfold generate_game_identifiers
  rw [assign_ids_map_game_id, insertion_sort_by_length]
  apply List.map_congr_left
  intro j _
  congr 2
  omega

/-! Lemmas about the save workflow, and claims C5 and C6. -/

theorem create_backup_xml (fs : FileSys) (copy_ok : Bool) :
    (create_backup fs copy_ok).2.xml = fs.xml := by
  unfold create_backup
  rcases fs with ⟨x, b⟩
  cases x <;> (try rfl) <;> (cases copy_ok <;> rfl)

theorem save_to_xml_saved_eq (fs : FileSys) (games : List NGame)
    (copy_ok : Bool) :
    (save_to_xml fs games copy_ok).saved =
      if games = [] then false
      else if (load_xml_games fs.xml).games.isEmpty then true
      else detect_changes (load_xml_games fs.xml).games games := by
  by_cases hg : games = []
  · simp [save_to_xml, hg]
  · by_cases he : (load_xml_games fs.xml).games.isEmpty
    · simp [save_to_xml, hg, create_backup_xml, he]
    · by_cases hd : detect_changes (load_xml_games fs.xml).games games
      · simp [save_to_xml, hg, create_backup_xml, he, hd]
      · simp [save_to_xml, hg, create_backup_xml, he, hd, apply_ite]

theorem save_to_xml_xml_eq (fs : FileSys) (games : List NGame)
    (copy_ok : Bool) :
    (save_to_xml fs games copy_ok).fs.xml =
      if games = [] then fs.xml
      else if (load_xml_games fs.xml).games.isEmpty then
        .wellFormed (doc_of_games games)
      else if detect_changes (load_xml_games fs.xml).games games then
        .wellFormed (doc_of_games games)
      else fs.xml := by
  by_cases hg : games = []
  · simp [save_to_xml, hg]
  · by_cases he : (load_xml_games fs.xml).games.isEmpty
    · simp [save_to_xml, hg, create_backup_xml, he]
    · by_cases hd : detect_changes (load_xml_games fs.xml).games games
      · simp [save_to_xml, hg, create_backup_xml, he, hd]
      · simp [save_to_xml, hg, create_backup_xml, he, hd, apply_ite]

/-- C5 (counterexample): the claim says a failed backup aborts the run
before any mutation.  On a store holding `sample_game`, with the backup
copy failing and a changed record incoming, `_save_to_xml` still performs
the mutating write: the store file is replaced although
`backup_created = false`, and no error is raised. -/
theorem backup_failure_does_not_block_save_cex :
    (save_to_xml { xml := sample_store, backup := .missing }
        [sample_game_nbc] false).saved = true ∧
    (save_to_xml { xml := sample_store, backup := .missing }
        [sample_game_nbc] false).backup_created = false ∧
    (save_to_xml { xml := sample_store, backup := .missing }
        [sample_game_nbc] false).fs.xml =
      .wellFormed (doc_of_games [sample_game_nbc]) ∧
    XmlFile.wellFormed (doc_of_games [sample_game_nbc]) ≠ sample_store := by
  refine ⟨by decide, by decide, by decide, by decide⟩

/-- C5 (amended): `_create_backup` catches its own failure, logs
`BACKUP_FAILED` and returns `False`; `_save_to_xml` then proceeds
identically to a run whose backup succeeded — the save decision and the
resulting store content depend only on the change detection, and no
`BackupFailedError` (or any abort) exists in the code. -/
theorem backup_outcome_does_not_gate_save (fs : FileSys)
    (games : List NGame) :
    (save_to_xml fs games false).saved =
      (save_to_xml fs games true).saved ∧
    (save_to_xml fs games false).fs.xml =
      (save_to_xml fs games true).fs.xml := by
  rw [save_to_xml_saved_eq, save_to_xml_saved_eq, save_to_xml_xml_eq,
    save_to_xml_xml_eq]
  exact ⟨rfl, rfl⟩

/-- C6 (counterexample): the claim says an interrupted save leaves the
prior document byte-for-byte untouched.  `_save_formatted_xml` opens the
destination in truncating write mode, so a run interrupted after four
characters leaves `"<nfl"` in place of the prior document. -/
theorem atomic_save_cex :
    save_formatted_xml (some "<games />") "<nfl_schedule>" (some 4) =
      some "<nfl" ∧
    some "<nfl" ≠ some "<games />" ∧
    ("<nfl" : String) ≠ "<nfl_schedule>" := by
  refine ⟨rfl, by decide, by decide⟩

/-- C6 (amended): the save is not atomic.  `_save_formatted_xml` writes
the pretty-printed document directly to the destination path — there is no
temporary file — so a completed save leaves the new text and an
interrupted save leaves a prefix of the new text, the prior content having
been truncated away on open. -/
theorem save_writes_destination_directly (prior : Option String)
    (text : String) (k : Nat) :
    save_formatted_xml prior text none = some text ∧
    save_formatted_xml prior text (some k) =
      some (String.mk (text.data.take k)) :=
  ⟨rfl, rfl⟩

/-- C8 (confirmed): load behaviour on missing or corrupt store.
`_load_xml_games` returns an empty dict — not an error — when the file
does not exist, and the parse failure path is non-fatal: it logs the
`XML_READ_ERROR` warning, returns an empty dict, and a subsequent
`_save_to_xml` run proceeds (creating a fresh store) instead of
crashing. -/
theorem load_missing_or_corrupt_store (games : List NGame)
    (hg : games ≠ []) (b : XmlFile) (copy_ok : Bool) :
    (load_xml_games .missing).games = [] ∧
    (load_xml_games .missing).warned = false ∧
    (load_xml_games .malformed).games = [] ∧
    (load_xml_games .malformed).warned = true ∧
    (save_to_xml { xml := .malformed, backup := b } games copy_ok).saved =
      true := by
  refine ⟨rfl, rfl, rfl, rfl, ?_⟩
  rw [save_to_xml_saved_eq]
  simp [hg, load_xml_games]

/-- Witness for C8 at a concrete run over a corrupt store. -/
theorem load_missing_or_corrupt_store_witness :
    ([sample_game] ≠ ([] : List NGame)) ∧
    ((load_xml_games .missing).games = [] ∧
      (load_xml_games .missing).warned = false ∧
      (load_xml_games .malformed).games = [] ∧
      (load_xml_games .malformed).warned = true ∧
      (save_to_xml { xml := .malformed, backup := .missing } [sample_game]
          false).saved = true) :=
  ⟨by decide,
    load_missing_or_corrupt_store [sample_game] (by decide) .missing false⟩

/-! Lemmas about the teams_builder loop, and claim C9. -/

theorem teams_builder_step_invalid (tmap : List (Option String × Nat))
    (st : BuilderState) (t : TeamElem) (h : team_name_valid t = false) :
    teams_builder_step tmap st t = st := by
  unfold teams_builder_step
  unfold team_name_valid at h
  simp [h]

theorem teams_builder_foldl_filter (tmap : List (Option String × Nat))
    (ts : List TeamElem) :
    ∀ st : BuilderState,
      ts.foldl (teams_builder_step tmap) st =
        (ts.filter team_name_valid).foldl (teams_builder_step tmap) st := by
  induction ts with
  | nil => intro st; rfl
  | cons t ts ih =>
    intro st
    by_cases hv : team_name_valid t
    · simp only [List.filter_cons, hv, List.foldl_cons, ite_true]
      exact ih _
    · simp only [List.foldl_cons,
        teams_builder_step_invalid tmap st t (by simpa using hv),
        List.filter_cons, hv]
      simpa using ih st

/-- C9 (counterexample): the claim requires the skipped-invalid count to
be surfaced in the change report.  Running `teams_builder.py`'s loop on a
valid team plus a team whose `name` is the empty string produces exactly
the same state — same resulting store, same `changes` counter — as
running without the invalid record, so no skipped-count (1 here, 0 there)
is surfaced anywhere. -/
theorem invalid_key_skip_count_cex :
    teams_builder_run
        [[⟨"name", some "Cowboys"⟩, ⟨"city", some "Dallas"⟩],
          [⟨"name", some ""⟩, ⟨"city", some "X"⟩]] [] =
      teams_builder_run
        [[⟨"name", some "Cowboys"⟩, ⟨"city", some "Dallas"⟩]] [] ∧
    (teams_builder_run
        [[⟨"name", some "Cowboys"⟩, ⟨"city", some "Dallas"⟩],
          [⟨"name", some ""⟩, ⟨"city", some "X"⟩]] []).changes = 1 := by
  refine ⟨by decide, by decide⟩

/-- C9 (amended): a candidate record whose natural-key field is missing or
empty is excluded — `teams_builder.py` skips it (no insertion, no change
entry, the run continues and its outcome equals the run without the
record), and `_load_xml_games` likewise skips a game element whose `id`
attribute is absent or empty — but no count of skipped records is computed
or surfaced anywhere: the change report is identical with or without the
invalid records. -/
theorem invalid_key_records_silently_skipped :
    (∀ (nfl_teams football_teams : List TeamElem),
      teams_builder_run nfl_teams football_teams =
        teams_builder_run (nfl_teams.filter team_name_valid)
          football_teams) ∧
    (∀ (w d : String) (ge : GameElem),
      load_game_entry w d { ge with id_attr := none } = none ∧
      load_game_entry w d { ge with id_attr := some "" } = none) := by
  constructor
  · intro nfl_teams football_teams
    exact teams_builder_foldl_filter _ nfl_teams _
  · intro w d ge
    exact ⟨rfl, rfl⟩

/-! Lemmas about the field comparison, and claim C7. -/

theorem filterMap_guard_eq_filter_map {α β : Type} (p : α → Prop)
    [DecidablePred p] (h : α → β) (l : List α) :
    l.filterMap (fun a => if p a then some (h a) else none) =
      (l.filter (fun a => decide (p a))).map h := by
  induction l with
  | nil => rfl
  | cons a l ih =>
    by_cases hp : p a
    · simp [List.filterMap_cons, List.filter_cons, hp, ih]
    · simp [List.filterMap_cons, List.filter_cons, hp, ih]

/-- C7 (counterexample): the claim says the classification compares every
field with none excluded.  A current record differing from the prior one
only in the `nfl_game_key` field is classified unchanged by
`_analyze_change_statistics` — the derived identifier fields
(`week_game_id`, `game_code`, `nfl_game_key`) are excluded from the
comparison. -/
theorem update_classification_excludes_id_fields_cex :
    sample_game_key_diff.nfl_game_key ≠ sample_game.nfl_game_key ∧
    analyze_change_statistics [(sample_game.game_id, sample_game)]
        [sample_game_key_diff] =
      { new_games := 0, edited_games := 0, unchanged_games := 1
        total_existing := 1, total_current := 1 } ∧
    game_changes sample_game sample_game_key_diff = [] := by
  refine ⟨by decide, by decide, by decide⟩

/-- C7 (amended): a new record whose key is present is classified
`Updated` if and only if one of the eight compared fields (`week`, `date`,
`away_team`, `home_team`, `location_note`, `time_et`, `time_local`,
`network`) differs under string-exact comparison after `str()` coercion;
the derived identifier fields are excluded.  When it is classified
`Updated`, the diff list of `_compare_with_backup` carries exactly one
rendered old-value-to-new-value entry per changed compared field, in field
order, and it is empty exactly when the record is classified unchanged. -/
theorem update_classification_characterization (game existing : NGame) :
    (game_differs game existing = true ↔
      ∃ f ∈ fields_to_compare,
        pyStr (game_get game f) ≠ pyStr (game_get existing f)) ∧
    game_changes existing game =
      (fields_to_compare.filter
        (fun f =>
          decide
            (pyStr (game_get existing f) ≠ pyStr (game_get game f)))).map
        (fun f =>
          field_diff_msg f (pyStr (game_get existing f))
            (pyStr (game_get game f))) ∧
    (game_changes existing game = [] ↔ game_differs game existing = false) := by
  have hch : game_changes existing game =
      (fields_to_compare.filter
        (fun f =>
          decide
            (pyStr (game_get existing f) ≠ pyStr (game_get game f)))).map
        (fun f =>
          field_diff_msg f (pyStr (game_get existing f))
            (pyStr (game_get game f))) := by
    unfold game_changes
    exact filterMap_guard_eq_filter_map
      (fun f => pyStr (game_get existing f) ≠ pyStr (game_get game f))
      (fun f =>
        field_diff_msg f (pyStr (game_get existing f))
          (pyStr (game_get game f)))
      fields_to_compare
  refine ⟨?_, hch, ?_⟩
  · unfold game_differs
    rw [List.any_eq_true]
    constructor
    · rintro ⟨f, hf, hd⟩
      exact ⟨f, hf, by simpa using hd⟩
    · rintro ⟨f, hf, hd⟩
      exact ⟨f, hf, by simpa using hd⟩
  · rw [hch]
    unfold game_differs
    constructor
    · intro he
      rw [Bool.eq_false_iff]
      intro ha
      obtain ⟨f, hf, hd⟩ := List.any_eq_true.mp ha
      have hmem : f ∈ fields_to_compare.filter
          (fun f =>
            decide
              (pyStr (game_get existing f) ≠ pyStr (game_get game f))) := by
        refine List.mem_filter.mpr ⟨hf, ?_⟩
        simp only [decide_eq_true_eq]
        intro hq
        have hd' : pyStr (game_get game f) ≠ pyStr (game_get existing f) := by
          simpa using hd
        exact hd' hq.symm
      rw [List.map_eq_nil_iff] at he
      rw [he] at hmem
      exact absurd hmem (List.not_mem_nil f)
    · intro hfalse
      rw [List.map_eq_nil_iff, List.filter_eq_nil_iff]
      intro f hf
      simp only [decide_eq_true_eq, not_not]
      by_contra hne
      have : fields_to_compare.any
          (fun f =>
            pyStr (game_get game f) != pyStr (game_get existing f)) = true :=
        List.any_eq_true.mpr ⟨f, hf, by simpa using fun he => hne he.symm⟩
      rw [hfalse] at this
      exact absurd this (by simp)

/-! Lemmas about the grouping idiom used by `_write_xml_file`. -/

theorem mem_first_dedup_aux (xs : List String) :
    ∀ (seen : List String) (a : String),
      a ∈ first_dedup_aux seen xs ↔ a ∈ xs ∧ a ∉ seen := by
  induction xs with
  | nil => intro seen a; simp [first_dedup_aux]
  | cons k ks ih =>
    intro seen a
    by_cases hk : k ∈ seen
    · rw [first_dedup_aux, if_pos hk, ih]
      constructor
      · rintro ⟨h1, h2⟩
        exact ⟨List.mem_cons_of_mem k h1, h2⟩
      · rintro ⟨h1, h2⟩
        rcases List.mem_cons.mp h1 with rfl | h1
        · exact absurd hk h2
        · exact ⟨h1, h2⟩
    · rw [first_dedup_aux, if_neg hk]
      constructor
      · intro hm
        rcases List.mem_cons.mp hm with rfl | hm
        · exact ⟨List.mem_cons_self a ks, hk⟩
        · obtain ⟨h1, h2⟩ := (ih (k :: seen) a).mp hm
          exact ⟨List.mem_cons_of_mem k h1,
            fun hs => h2 (List.mem_cons_of_mem k hs)⟩
      · rintro ⟨h1, h2⟩
        rcases List.mem_cons.mp h1 with rfl | h1
        · exact List.mem_cons_self a _
        · by_cases hak : a = k
          · exact hak ▸ List.mem_cons_self k _
          · exact List.mem_cons_of_mem k
              ((ih (k :: seen) a).mpr
                ⟨h1, fun hs => by
                  rcases List.mem_cons.mp hs with h | h
                  · exact hak h
                  · exact h2 h⟩)

theorem first_dedup_aux_nodup (xs : List String) :
    ∀ seen : List String, (first_dedup_aux seen xs).Nodup := by
  induction xs with
  | nil => intro seen; simp [first_dedup_aux]
  | cons k ks ih =>
    intro seen
    by_cases hk : k ∈ seen
    · rw [first_dedup_aux, if_pos hk]
      exact ih seen
    · rw [first_dedup_aux, if_neg hk]
      refine List.nodup_cons.mpr ⟨?_, ih (k :: seen)⟩
      intro hm
      exact ((mem_first_dedup_aux ks (k :: seen) k).mp hm).2
        (List.mem_cons_self k seen)

theorem first_dedup_nodup (xs : List String) : (first_dedup xs).Nodup :=
  first_dedup_aux_nodup xs []

theorem mem_first_dedup (xs : List String) (a : String) :
    a ∈ first_dedup xs ↔ a ∈ xs := by
  rw [first_dedup, mem_first_dedup_aux]
  simp

theorem join_filter_perm {α : Type} (key : α → String) :
    ∀ (ks : List String) (xs : List α), ks.Nodup →
      (∀ x ∈ xs, key x ∈ ks) →
      (ks.flatMap (fun k => xs.filter (fun x => key x == k))).Perm xs := by
  intro ks
  induction ks with
  | nil =>
    intro xs _ hall
    have hx : xs = [] := by
      cases xs with
      | nil => rfl
      | cons x xs => exact absurd (hall x (List.mem_cons_self x xs)) (by simp)
    simp [hx]
  | cons k ks ih =>
    intro xs hnd hall
    have hknotin : k ∉ ks := (List.nodup_cons.mp hnd).1
    have hndt : ks.Nodup := (List.nodup_cons.mp hnd).2
    rw [List.flatMap_cons]
    have hcongr :
        ks.flatMap (fun k' => xs.filter (fun x => key x == k')) =
          ks.flatMap
            (fun k' =>
              (xs.filter (fun x => !(key x == k))).filter
                (fun x => key x == k')) := by
      apply List.flatMap_congr
      intro k' hk'
      have hk'ne : k' ≠ k := fun he => hknotin (he ▸ hk')
      rw [List.filter_filter]
      apply List.filter_congr
      intro x _
      by_cases he : key x == k'
      · have hxk : key x = k' := by simpa using he
        have : (key x == k) = false := by
          simp [hxk]
          exact hk'ne
        simp [he, this]
      · simp [he]
    rw [hcongr]
    have hih :
        (ks.flatMap
            (fun k' =>
              (xs.filter (fun x => !(key x == k))).filter
                (fun x => key x == k'))).Perm
          (xs.filter (fun x => !(key x == k))) := by
      apply ih _ hndt
      intro x hx
      obtain ⟨hx1, hx2⟩ := List.mem_filter.mp hx
      rcases List.mem_cons.mp (hall x hx1) with he | hm
      · exfalso
        have hx2' : (key x == k) = false := by simpa using hx2
        rw [he] at hx2'
        simp at hx2'
      · exact hm
    exact ((hih.append_left _).trans (List.filter_append_perm _ xs))

theorem group_by_key_join_perm {α : Type} (key : α → String) (xs : List α) :
    ((group_by_key key xs).flatMap (fun b => b.2)).Perm xs := by
  unfold group_by_key
  rw [List.flatMap_map]
  exact join_filter_perm key (first_dedup (xs.map key)) xs
    (first_dedup_nodup _)
    (fun x hx =>
      (mem_first_dedup _ _).mpr (List.mem_map.mpr ⟨x, hx, rfl⟩))

theorem group_by_key_map_join_perm {α β : Type} (key : α → String)
    (xs : List α) (f : α → β) :
    ((group_by_key key xs).flatMap (fun b => b.2.map f)).Perm (xs.map f) := by
  have h : (group_by_key key xs).flatMap (fun b => b.2.map f) =
      ((group_by_key key xs).flatMap (fun b => b.2)).map f := by
    rw [List.map_flatMap]
  rw [h]
  exact (group_by_key_join_perm key xs).map f

theorem mem_group_by_key {α : Type} (key : α → String) (xs : List α)
    (b : String × List α) (hb : b ∈ group_by_key key xs) :
    b.2 = xs.filter (fun x => key x == b.1) := by
  unfold group_by_key at hb
  obtain ⟨k, _, he⟩ := List.mem_map.mp hb
  rw [← he]

theorem mem_of_mem_group_by_key {α : Type} (key : α → String) (xs : List α)
    (b : String × List α) (hb : b ∈ group_by_key key xs) (x : α)
    (hx : x ∈ b.2) : x ∈ xs ∧ key x = b.1 := by
  rw [mem_group_by_key key xs b hb] at hx
  obtain ⟨h1, h2⟩ := List.mem_filter.mp hx
  exact ⟨h1, by simpa using h2⟩

/-! Correspondence between the nested loops of `_load_xml_games` and the
flattened entry list. -/

theorem games_fold_eq (w d0 : String) (ges : List GameElem) :
    ∀ acc : List (String × NGame),
      ges.foldl
          (fun d ge =>
            match load_game_entry w d0 ge with
            | some (k, v) => dict_assign d k v
            | none => d)
          acc =
        (ges.filterMap (load_game_entry w d0)).foldl
          (fun d p => dict_assign d p.1 p.2) acc := by
  induction ges with
  | nil => intro acc; rfl
  | cons ge ges ih =>
    intro acc
    rw [List.foldl_cons, List.filterMap_cons]
    cases h : load_game_entry w d0 ge with
    | none => rw [ih]
    | some p =>
      rcases p with ⟨k, v⟩
      rw [List.foldl_cons, ih]

theorem dates_fold_eq (w : String)
    (dts : List (String × List GameElem)) :
    ∀ acc : List (String × NGame),
      dts.foldl
          (fun d dt =>
            dt.2.foldl
              (fun d ge =>
                match load_game_entry w dt.1 ge with
                | some (k, v) => dict_assign d k v
                | none => d)
              d)
          acc =
        (dts.flatMap
            (fun dt => dt.2.filterMap (load_game_entry w dt.1))).foldl
          (fun d p => dict_assign d p.1 p.2) acc := by
  induction dts with
  | nil => intro acc; rfl
  | cons dt dts ih =>
    intro acc
    rw [List.foldl_cons, List.flatMap_cons, List.foldl_append,
      games_fold_eq, ih]

theorem load_xml_games_eq_entries (doc : NflDoc) :
    (load_xml_games (.wellFormed doc)).games =
      (load_entries doc).foldl (fun d p => dict_assign d p.1 p.2) [] := by
  show doc.foldl _ [] = _
  unfold load_entries
  generalize hacc : ([] : List (String × NGame)) = acc
  clear hacc
  induction doc generalizing acc with
  | nil => rfl
  | cons wk doc ih =>
    rw [List.foldl_cons, List.flatMap_cons, List.foldl_append,
      dates_fold_eq, ih]

theorem dict_assign_fresh {κ α : Type} [BEq κ] [LawfulBEq κ]
    (d : List (κ × α)) (k : κ) (v : α) (h : k ∉ dict_keys d) :
    dict_assign d k v = d ++ [(k, v)] := by
  induction d with
  | nil => rfl
  | cons p d ih =>
    have hp : (p.1 == k) = false := by
      simp only [beq_eq_false_iff_ne, ne_eq]
      intro he
      exact h (he ▸ List.mem_map.mpr ⟨p, List.mem_cons_self p d, rfl⟩)
    rw [dict_assign, if_neg (by simp [hp]), ih]
    · rfl
    · intro hm
      exact h (List.mem_cons_of_mem _ hm)

theorem foldl_assign_of_nodup {κ α : Type} [BEq κ] [LawfulBEq κ]
    (es : List (κ × α)) :
    ∀ d : List (κ × α), (dict_keys d ++ dict_keys es).Nodup →
      es.foldl (fun d p => dict_assign d p.1 p.2) d = d ++ es := by
  induction es with
  | nil => intro d _; simp
  | cons e es ih =>
    intro d hnd
    have hfresh : e.1 ∉ dict_keys d := by
      intro hm
      have := (List.nodup_append.mp hnd).2.2
      exact this hm (by simp [dict_keys])
    rw [List.foldl_cons, dict_assign_fresh d e.1 e.2 hfresh]
    have : (dict_keys (d ++ [e]) ++ dict_keys es).Nodup := by
      have he : dict_keys (d ++ [e]) ++ dict_keys es =
          dict_keys d ++ dict_keys (e :: es) := by
        simp [dict_keys]
      rw [he]
      exact hnd
    rw [ih (d ++ [e]) this]
    simp

theorem dict_lookup_of_mem_nodup {κ α : Type} [BEq κ] [LawfulBEq κ]
    (es : List (κ × α)) (k : κ) (v : α) (hm : (k, v) ∈ es)
    (hn : (dict_keys es).Nodup) : dict_lookup es k = some v := by
  induction es with
  | nil => exact absurd hm (List.not_mem_nil _)
  | cons e es ih =>
    rcases List.mem_cons.mp hm with rfl | hm'
    · simp [dict_lookup, List.find?]
    · have hk : k ∈ dict_keys es :=
        List.mem_map.mpr ⟨(k, v), hm', rfl⟩
      have hne : (e.1 == k) = false := by
        simp only [beq_eq_false_iff_ne, ne_eq]
        intro he
        exact (List.nodup_cons.mp (by simpa [dict_keys] using hn)).1
          (he ▸ hk)
      rw [dict_lookup, List.find?]
      rw [hne]
      exact ih hm' (List.nodup_cons.mp (by simpa [dict_keys] using hn)).2

/-! The write/load round trip of one game record. -/

theorem load_game_entry_game_elem_of (g : NGame) (h : g.game_id ≠ "") :
    load_game_entry (week_group_key g) (date_group_key g)
        (game_elem_of g) =
      some (g.game_id, xml_loaded_game g) := by
  unfold load_game_entry game_elem_of xml_loaded_game
  simp only [h, if_neg, ite_false]
  congr 1
  congr 1
  by_cases hl : pyTruthy g.location_note
  · simp [hl, get_xml_text]
  · simp [hl, get_xml_text]

theorem filterMap_eq_map_of_forall {α β : Type} (f : α → Option β)
    (h : α → β) (l : List α) (H : ∀ a ∈ l, f a = some (h a)) :
    l.filterMap f = l.map h := by
  induction l with
  | nil => rfl
  | cons a l ih =>
    rw [List.filterMap_cons, H a (List.mem_cons_self a l), List.map_cons,
      ih (fun a ha => H a (List.mem_cons_of_mem _ ha))]

theorem load_entries_doc_of_games (L : List NGame)
    (hid : ∀ g ∈ L, g.game_id ≠ "") :
    (load_entries (doc_of_games L)).Perm
      (L.map (fun g => (g.game_id, xml_loaded_game g))) := by
  unfold load_entries doc_of_games
  rw [List.flatMap_map]
  have hsort :
      (insertion_sort_by week_order_le
          (group_by_key week_group_key L)).Perm
        (group_by_key week_group_key L) :=
    insertion_sort_by_perm _ _
  refine (hsort.flatMap_right _).trans ?_
  have hinner : ∀ wb ∈ group_by_key week_group_key L,
      ((group_by_key date_group_key wb.2).map
          (fun db => (db.1, db.2.map game_elem_of))).flatMap
        (fun dt => dt.2.filterMap (load_game_entry wb.1 dt.1)) =
      (group_by_key date_group_key wb.2).flatMap
        (fun db => db.2.map
          (fun g => (g.game_id, xml_loaded_game g))) := by
    intro wb hwb
    rw [List.flatMap_map]
    apply List.flatMap_congr
    intro db hdb
    rw [List.filterMap_map]
    apply filterMap_eq_map_of_forall
    intro g hg
    obtain ⟨hgw, hgd⟩ := mem_of_mem_group_by_key date_group_key wb.2 db hdb g hg
    obtain ⟨hgL, hgk⟩ := mem_of_mem_group_by_key week_group_key L wb hwb g hgw
    have := load_game_entry_game_elem_of g (hid g hgL)
    rw [← hgk, ← hgd]
    simpa using this
  dsimp only
  rw [List.flatMap_congr hinner]
  exact
    (List.Perm.flatMap_left _
      (fun wb _ =>
        group_by_key_map_join_perm date_group_key wb.2
          (fun g => (g.game_id, xml_loaded_game g)))).trans
      (group_by_key_map_join_perm week_group_key L
        (fun g => (g.game_id, xml_loaded_game g)))

/-! Field-level round trip facts and the idempotence development (C3). -/

theorem pyStr_text_norm (t : Option String) (h : t ≠ some "") :
    pyStr (text_norm t) = pyStr t := by
  cases t with
  | none => rfl
  | some s =>
    have hs : s ≠ "" := fun he => h (by rw [he])
    simp [text_norm, hs, pyStr]

theorem week_group_key_of_truthy (g : NGame) (h : pyTruthy g.week = true) :
    some (week_group_key g) = g.week := by
  cases hw : g.week with
  | none => rw [hw] at h; simp [pyTruthy] at h
  | some w =>
    have hne : w ≠ "" := by
      rw [hw] at h
      simpa [pyTruthy] using h
    simp [week_group_key, pyOrDefault, hw, hne]

theorem date_group_key_of_truthy (g : NGame) (h : pyTruthy g.date = true) :
    some (date_group_key g) = g.date := by
  cases hd : g.date with
  | none => rw [hd] at h; simp [pyTruthy] at h
  | some d =>
    have hne : d ≠ "" := by
      rw [hd] at h
      simpa [pyTruthy] using h
    simp [date_group_key, pyOrDefault, hd, hne]

theorem game_differs_loaded (g : NGame) (h : xml_roundtrip_safe g) :
    game_differs g (xml_loaded_game g) = false := by
  obtain ⟨hid, hw, hd, ha, hh, hl, ht1, ht2, hn⟩ := h
  have hloc :
      pyStr
          (if pyTruthy g.location_note then text_norm g.location_note
            else some "") =
        pyStr g.location_note := by
    cases hls : g.location_note with
    | none => rw [hls] at hl; simp at hl
    | some s =>
      by_cases hse : s = ""
      · simp [hse, pyTruthy, pyStr]
      · simp [pyTruthy, hse, text_norm, pyStr]
  unfold game_differs
  rw [List.any_eq_false]
  intro f hf
  fin_cases hf
  · simp only [game_get, xml_loaded_game]
    rw [week_group_key_of_truthy g hw]
    simp
  · simp only [game_get, xml_loaded_game]
    rw [date_group_key_of_truthy g hd]
    simp
  · simp only [game_get, xml_loaded_game]
    rw [pyStr_text_norm _ ha]
    simp
  · simp only [game_get, xml_loaded_game]
    rw [pyStr_text_norm _ hh]
    simp
  · simp only [game_get, xml_loaded_game]
    rw [hloc]
    simp
  · simp only [game_get, xml_loaded_game]
    rw [pyStr_text_norm _ ht1]
    simp
  · simp only [game_get, xml_loaded_game]
    rw [pyStr_text_norm _ ht2]
    simp
  · simp only [game_get, xml_loaded_game]
    rw [pyStr_text_norm _ hn]
    simp

theorem loaded_store_of_doc (L : List NGame)
    (hids : (L.map (fun g => g.game_id)).Nodup)
    (hid : ∀ g ∈ L, g.game_id ≠ "") :
    (load_xml_games (.wellFormed (doc_of_games L))).games =
        load_entries (doc_of_games L) ∧
      (load_entries (doc_of_games L)).Perm
        (L.map (fun g => (g.game_id, xml_loaded_game g))) ∧
      (dict_keys (load_entries (doc_of_games L))).Nodup := by
  have hperm := load_entries_doc_of_games L hid
  have hkeys :
      (dict_keys (load_entries (doc_of_games L))).Perm
        (L.map (fun g => g.game_id)) := by
    have h1 := hperm.map Prod.fst
    have h2 :
        (L.map (fun g => (g.game_id, xml_loaded_game g))).map Prod.fst =
          L.map (fun g => g.game_id) := by
      rw [List.map_map]
      rfl
    rw [h2] at h1
    exact h1
  have hnd : (dict_keys (load_entries (doc_of_games L))).Nodup :=
    hids.perm hkeys.symm
  refine ⟨?_, hperm, hnd⟩
  rw [load_xml_games_eq_entries]
  have := foldl_assign_of_nodup (load_entries (doc_of_games L)) []
    (by simpa [dict_keys] using hnd)
  simpa using this

theorem detect_changes_roundtrip_false (L : List NGame)
    (hids : (L.map (fun g => g.game_id)).Nodup)
    (hsafe : ∀ g ∈ L, xml_roundtrip_safe g) :
    detect_changes (load_xml_games (.wellFormed (doc_of_games L))).games L =
      false := by
  obtain ⟨hes, hperm, hnd⟩ :=
    loaded_store_of_doc L hids (fun g hg => (hsafe g hg).1)
  rw [hes]
  have hlen : (load_entries (doc_of_games L)).length = L.length := by
    rw [hperm.length_eq, List.length_map]
  unfold detect_changes
  rw [if_neg (by rw [hlen]; exact fun h => h rfl)]
  rw [List.any_eq_false]
  intro g hg
  have hmem : (g.game_id, xml_loaded_game g) ∈ load_entries (doc_of_games L) :=
    hperm.mem_iff.mpr (List.mem_map.mpr ⟨g, hg, rfl⟩)
  rw [dict_lookup_of_mem_nodup _ _ _ hmem hnd]
  simp [game_differs_loaded g (hsafe g hg)]

theorem analyze_all_unchanged (existing : List (String × NGame))
    (games : List NGame)
    (H : ∀ g ∈ games, ∃ e, dict_lookup existing g.game_id = some e ∧
      game_differs g e = false) :
    analyze_change_statistics existing games =
      { new_games := 0, edited_games := 0, unchanged_games := games.length
        total_existing := existing.length
        total_current := games.length } := by
  unfold analyze_change_statistics
  suffices h : ∀ (gs : List NGame) (stats : ChangeStats),
      (∀ g ∈ gs, ∃ e, dict_lookup existing g.game_id = some e ∧
        game_differs g e = false) →
      gs.foldl (analyze_step existing) stats =
        { stats with
            unchanged_games := stats.unchanged_games + gs.length } by
    rw [h games _ H]
    simp
  intro gs
  induction gs with
  | nil => intro stats _; simp
  | cons g gs ih =>
    intro stats hg
    obtain ⟨e, he, hdiff⟩ := hg g (List.mem_cons_self g gs)
    have hstep : analyze_step existing stats g =
        { stats with unchanged_games := stats.unchanged_games + 1 } := by
      unfold analyze_step
      rw [he]
      simp [hdiff]
    rw [List.foldl_cons, hstep,
      ih _ (fun g' h' => hg g' (List.mem_cons_of_mem _ h'))]
    simp only [List.length_cons]
    congr 1
    omega

/-- C3 (counterexample): idempotence fails for a record whose `week` is
`None`.  `_write_xml_file` files it under the week key `'Unknown'`, the
reload hands `'Unknown'` back as its week, while the in-memory record
still coerces to `'None'`; the second run over the identical list
therefore classifies the game as edited and rewrites the store instead of
reporting `Unchanged` and leaving it alone. -/
theorem reconcile_not_idempotent_cex :
    detect_changes
        (load_xml_games
          (.wellFormed (doc_of_games [sample_game_no_week]))).games
        [sample_game_no_week] = true ∧
    analyze_change_statistics
        (load_xml_games
          (.wellFormed (doc_of_games [sample_game_no_week]))).games
        [sample_game_no_week] =
      { new_games := 0, edited_games := 1, unchanged_games := 0
        total_existing := 1, total_current := 1 } ∧
    (save_to_xml
        { xml := .wellFormed (doc_of_games [sample_game_no_week])
          backup := .missing }
        [sample_game_no_week] true).saved = true := by
  refine ⟨by decide, by decide, by decide⟩

/-- C3 (amended): reconciliation is idempotent exactly for round-trip safe
records.  If the records of a non-empty run have distinct ids and every
record is `xml_roundtrip_safe` (truthy id, week and date, a present
`location_note`, and no empty-string text field), then running the
reconciliation again over the store the first run wrote detects no
changes, classifies every key as unchanged (no new and no edited entries),
and does not rewrite the store file. -/
theorem reconcile_idempotent_for_safe_records (L : List NGame)
    (hids : (L.map (fun g => g.game_id)).Nodup)
    (hsafe : ∀ g ∈ L, xml_roundtrip_safe g)
    (hne : L ≠ []) :
    detect_changes (load_xml_games (.wellFormed (doc_of_games L))).games L =
      false ∧
    analyze_change_statistics
        (load_xml_games (.wellFormed (doc_of_games L))).games L =
      { new_games := 0, edited_games := 0, unchanged_games := L.length
        total_existing := L.length, total_current := L.length } ∧
    ∀ (b : XmlFile) (copy_ok : Bool),
      (save_to_xml { xml := .wellFormed (doc_of_games L), backup := b } L
          copy_ok).saved = false := by
  obtain ⟨hes, hperm, hnd⟩ :=
    loaded_store_of_doc L hids (fun g hg => (hsafe g hg).1)
  have hlen : (load_entries (doc_of_games L)).length = L.length := by
    rw [hperm.length_eq, List.length_map]
  have hdet := detect_changes_roundtrip_false L hids hsafe
  refine ⟨hdet, ?_, ?_⟩
  · rw [hes]
    rw [analyze_all_unchanged _ _ ?_]
    · rw [hlen]
    · intro g hg
      refine ⟨xml_loaded_game g, ?_, game_differs_loaded g (hsafe g hg)⟩
      exact dict_lookup_of_mem_nodup _ _ _
        (hperm.mem_iff.mpr (List.mem_map.mpr ⟨g, hg, rfl⟩)) hnd
  · intro b copy_ok
    rw [save_to_xml_saved_eq]
    have hnonempty :
        (load_xml_games
          (.wellFormed (doc_of_games L))).games.isEmpty = false := by
      rw [hes, List.isEmpty_eq_false_iff_exists_mem]
      obtain ⟨g, hg⟩ := List.exists_mem_of_ne_nil L hne
      exact ⟨_, hperm.mem_iff.mpr (List.mem_map.mpr ⟨g, hg, rfl⟩)⟩
    simp [hne, hnonempty, hdet]

/-- Witness for the amended C3 at a concrete one-record run. -/
theorem reconcile_idempotent_for_safe_records_witness :
    (([sample_game].map (fun g => g.game_id)).Nodup ∧
      (∀ g ∈ [sample_game], xml_roundtrip_safe g) ∧
      [sample_game] ≠ []) ∧
    detect_changes
        (load_xml_games (.wellFormed (doc_of_games [sample_game]))).games
        [sample_game] = false :=
  ⟨⟨by decide, by decide, by decide⟩,
    (reconcile_idempotent_for_safe_records [sample_game] (by decide)
        (by decide) (by decide)).1⟩
